import Mathlib

/-!
Verification development for the crx-rpc repository: a shallow embedding of
the protocol core (request/response client, service host, subscription hub,
router, disposable registry) with theorems about its behaviour.

Conventions of the embedding:
* JavaScript runtime values that may cross the wire are modelled by `JsValue`;
  `undefined` is `JsValue.undef` and property absence is `Option.none`.
* JS `Map` objects are association lists with set-or-update semantics
  (`mapSet`), JS `Set` objects are insertion-ordered duplicate-free lists
  (`setAdd` / `setDel`).
* Callbacks (promise continuations, dispose callbacks) are identified by
  numeric tokens; running a callback is recorded in an explicit event list.
* Message sends (`chrome.tabs.sendMessage`, adapter `sendMessage`, ...) are
  recorded in explicit output lists instead of performing IO.
-/

namespace CrxRpc

/-- A JSON-serializable JavaScript value (the payloads the library sends). -/
inductive JsValue where
  | undef
  | nullV
  | boolV (b : Bool)
  | numV (n : Int)
  | strV (s : String)
  | objV (fields : List (String × JsValue))

/-- JavaScript truthiness of a `JsValue` (`if (v)`), as used by the
`msg.value` guard in `BaseObservable`'s message listener. -/
def JsValue.truthy : JsValue → Bool
  | .undef => false
  | .nullV => false
  | .boolV b => b
  | .numV n => n != 0
  | .strV s => s != ""
  | .objV _ => true

/-! ## JS `Map` and `Set` operations -/

/-- `Map.get`: first entry whose key matches. -/
def mapGet {α : Type} (m : List (String × α)) (k : String) : Option α :=
  (m.find? (fun p => p.1 == k)).map (·.2)

/-- `Map.set`: update the entry in place if the key exists, else append. -/
def mapSet {α : Type} (m : List (String × α)) (k : String) (v : α) :
    List (String × α) :=
  if (m.find? (fun p => p.1 == k)).isSome then
    m.map (fun p => if p.1 == k then (k, v) else p)
  else m ++ [(k, v)]

/-- `Map.delete`: drop every entry with the key. -/
def mapDelete {α : Type} (m : List (String × α)) (k : String) :
    List (String × α) :=
  m.filter (fun p => !(p.1 == k))

/-- `Set.add`: append unless already present (JS sets keep insertion order). -/
def setAdd (s : List Nat) (x : Nat) : List Nat :=
  if x ∈ s then s else s ++ [x]

/-- `Set.delete`: remove the element. -/
def setDel (s : List Nat) (x : Nat) : List Nat :=
  s.filter (fun y => !(y == x))

/-! ## `Disposable` (src/disposable.ts) -/

/-- State of a `Disposable`: the `_isDisposed` flag and the
`_disposeCallbacks` set, callbacks being identified by numeric tokens in
registration order (a JS `Set` keeps insertion order and deduplicates). -/
structure DisposableState where
  isDisposed : Bool
  callbacks : List Nat
deriving Repr, DecidableEq

/-- `disposeWithMe`: add a callback to the `_disposeCallbacks` set. -/
def disposeWithMe (st : DisposableState) (c : Nat) : DisposableState :=
  if c ∈ st.callbacks then st else { st with callbacks := st.callbacks ++ [c] }

/-- `dispose()`: if already disposed do nothing; otherwise flip the flag and
run every registered callback in order.  The second component lists the
callbacks executed by this call, in execution order. -/
def dispose (st : DisposableState) : DisposableState × List Nat :=
  if st.isDisposed then (st, [])
  else ({ st with isDisposed := true }, st.callbacks)

/-- `isDisposed()`: pure query of the flag. -/
def isDisposedQuery (st : DisposableState) : Bool :=
  st.isDisposed

/-- The state reached by registering the callbacks `cs` (in that order) on a
fresh `Disposable`. -/
def registerAll (cs : List Nat) : DisposableState :=
  cs.foldl disposeWithMe ⟨false, []⟩

/-! ## `BaseObservable` (client.ts) -/

/-- An observable update operation as carried by an `OBSERVABLE_EVENT`
message (`operation: 'next' | 'complete'`, value only for `next`). -/
inductive ObservableOp where
  | next (value : JsValue)
  | complete

/-- Subscriber-side state of a `BaseObservable`: its `completed` flag and the
list of values delivered to the `_callback` so far (in delivery order). -/
structure ObservableState where
  completed : Bool
  delivered : List JsValue

/-- The `OBSERVABLE_EVENT` listener of `BaseObservable`: ignore other keys;
on `next`, invoke the callback only when not completed and the value is
truthy; on `complete`, set the completed flag. -/
def baseObservableOnMessage (finalKey : String) (st : ObservableState)
    (msgKey : String) (op : ObservableOp) : ObservableState :=
  if msgKey == finalKey then
    match op with
    | .next v =>
        if !st.completed && v.truthy then
          { st with delivered := st.delivered ++ [v] }
        else st
    | .complete => { st with completed := true }
  else st

/-! ## Wire error payloads and thrown values (error.ts, background.ts, client.ts) -/

/-- The `error` field of an `RpcResponse` on the wire:
`{ message, stack?, name? }` where each field is a string or `undefined`
(`none`).  All payloads the hosts build from `Error` instances, strings or
`toRpcErrorLike` fall in this shape. -/
structure WireError where
  message : Option String
  name : Option String
  stack : Option String

/-- A value thrown (or rejected with) by a service method.  Record fields
relevant to `toRpcErrorLike` are modelled as string-or-absent, matching its
`typeof === 'string'` checks (a present non-string field behaves like an
absent one there). -/
inductive Thrown where
  /-- an `Error` instance: `name` and `message` are always strings,
  `stack` may be undefined -/
  | errObj (name message : String) (stack : Option String)
  /-- a plain thrown object (`isRecord` holds), with its `error`, `message`
  and `name` properties when they are strings -/
  | recObj (errorField messageField nameField : Option String)
  /-- a thrown string -/
  | strV (s : String)
  /-- any other primitive (number, boolean, `null`, `undefined`, ...) -/
  | prim

/-- The normalized error of error.ts (`toRpcErrorLike` return type): every
branch sets `message` and `name`; `stack` only for `Error` instances. -/
structure RpcErrorLike where
  message : String
  name : String
  stack : Option String

/-- JS `s.trim()` is truthy (non-empty after stripping whitespace) exactly
when `s` contains a non-whitespace character; the guard is modelled by that
equivalent predicate. -/
def strHasContent (s : String) : Bool :=
  s.data.any (fun c => !c.isWhitespace)

/-- The guard `typeof x === 'string' && x.trim()` applied to an optional
string field. -/
def strTrimTruthy : Option String → Bool
  | some s => strHasContent s
  | none => false

/-- `toRpcErrorLike` (src/error.ts): normalize an arbitrary thrown value into
`{message, name, stack?}`, coercing non-`Error` values to a best-effort
message and falling back to `"Unknown error"`. -/
def toRpcErrorLike (t : Thrown) : RpcErrorLike :=
  match t with
  | .errObj name message stack =>
      { message := if message == "" then "Unknown error" else message
        name := name
        stack := stack }
  | .recObj errorField messageField nameField =>
      if strTrimTruthy errorField then
        { message := errorField.getD "", name := "ErrorPayload", stack := none }
      else if strTrimTruthy messageField then
        { message := messageField.getD ""
          name := nameField.getD "RPCError"
          stack := none }
      else
        { message := "Unknown error", name := "RPCError", stack := none }
  | .strV s =>
      if strHasContent s then { message := s, name := "RPCError", stack := none }
      else { message := "Unknown error", name := "RPCError", stack := none }
  | .prim => { message := "Unknown error", name := "RPCError", stack := none }

/-- JS property access `err.message` on a thrown value (string or
`undefined`): only `Error` instances and records have one. -/
def thrownMessageProp : Thrown → Option String
  | .errObj _ m _ => some m
  | .recObj _ mF _ => mF
  | .strV _ => none
  | .prim => none

/-- JS property access `err.name` on a thrown value. -/
def thrownNameProp : Thrown → Option String
  | .errObj n _ _ => some n
  | .recObj _ _ nF => nF
  | .strV _ => none
  | .prim => none

/-- JS property access `err.stack` on a thrown value. -/
def thrownStackProp : Thrown → Option String
  | .errObj _ _ s => s
  | .recObj _ _ _ => none
  | .strV _ => none
  | .prim => none

/-- The error payload `BackgroundRPCHost` (src/background.ts) puts on the
wire in its `.catch(err => ...)`: `{ message: err.message, stack: err.stack,
name: err.name }`, copied verbatim with no normalization. -/
def backgroundErrorPayload (t : Thrown) : WireError :=
  { message := thrownMessageProp t
    name := thrownNameProp t
    stack := thrownStackProp t }

/-- The error payload `UnifiedRPCHost.handleRequest` and `ContentRPCHost`
put on the wire: the thrown value normalized by `toRpcErrorLike`. -/
def contentErrorPayload (t : Thrown) : WireError :=
  { message := some (toRpcErrorLike t).message
    name := some (toRpcErrorLike t).name
    stack := (toRpcErrorLike t).stack }

/-! ## Service host dispatch (background.ts `BackgroundRPCHost`,
unified-host `UnifiedRPCHost.handleRequest`, content `ContentRPCHost`) -/

/-- Outcome of invoking a service method: a resolved value or a
thrown/rejected value (`Promise.resolve().then(...)` funnels synchronous
throws and asynchronous rejections into the same path). -/
inductive ExecOutcome where
  | ok (value : JsValue)
  | thrown (err : Thrown)

/-- A registered service implementation: its own methods by name
(`method in serviceInstance`). -/
structure ServiceImpl where
  methods : List (String × (List JsValue → ExecOutcome))

/-- An incoming RPC request (types.ts `RpcRequest`, routing fields elided
here; they are handled by the router model below). -/
structure Request where
  id : String
  service : String
  method : String
  args : List JsValue

/-- An outgoing RPC response (types.ts `RpcResponse`). -/
structure Response where
  id : String
  result : Option JsValue
  error : Option WireError
  service : String
  method : String

/-- The request dispatch shared by every host: unknown service → error
response naming the service; unknown method → error response naming the
method; otherwise invoke the method and serialize its result or its error
through the host's error serializer `serializeErr`. -/
def handleRequest (services : List (String × ServiceImpl))
    (serializeErr : Thrown → WireError) (req : Request) : Response :=
  match mapGet services req.service with
  | none =>
      { id := req.id, result := none
        error := some { message := some ("Unknown service: " ++ req.service)
                        name := none, stack := none }
        service := req.service, method := req.method }
  | some impl =>
      match mapGet impl.methods req.method with
      | none =>
          { id := req.id, result := none
            error := some { message := some ("Unknown method: " ++ req.method)
                            name := none, stack := none }
            service := req.service, method := req.method }
      | some f =>
          match f req.args with
          | .ok v =>
              { id := req.id, result := some v, error := none
                service := req.service, method := req.method }
          | .thrown t =>
              { id := req.id, result := none, error := some (serializeErr t)
                service := req.service, method := req.method }

/-- `BackgroundRPCHost`'s dispatch: verbatim error fields. -/
def backgroundHandleRequest (services : List (String × ServiceImpl))
    (req : Request) : Response :=
  handleRequest services backgroundErrorPayload req

/-- `UnifiedRPCHost.handleRequest` / `ContentRPCHost` dispatch: errors
normalized by `toRpcErrorLike`. -/
def unifiedHandleRequest (services : List (String × ServiceImpl))
    (req : Request) : Response :=
  handleRequest services contentErrorPayload req

/-! ## Request/Response client (client.ts `RPCClient`) -/

/-- The error object the client reconstructs from a wire payload:
`new Error(error.message)` (empty message when the payload's is undefined),
`err.name = error.name || 'RPCError'`, `err.stack = error.stack`. -/
structure RpcError where
  message : String
  name : String
  stack : Option String

/-- Client-side error reconstruction from the wire payload. -/
def reconstructError (e : WireError) : RpcError :=
  { message := e.message.getD ""
    name := match e.name with
            | some n => if n == "" then "RPCError" else n
            | none => "RPCError"
    stack := e.stack }

/-- How a pending promise gets settled by the response listener. -/
inductive Settlement where
  | resolved (value : Option JsValue)
  | rejected (err : RpcError)

/-- Client state: the pending-call table, mapping request ids to promise
continuations (identified by tokens). -/
structure ClientState where
  pending : List (String × Nat)

/-- `Map.get` on the pending table. -/
def lookupPending (st : ClientState) (id : String) : Option Nat :=
  (st.pending.find? (fun p => p.1 == id)).map (·.2)

/-- `Map.delete` on the pending table. -/
def removePending (st : ClientState) (id : String) : ClientState :=
  ⟨st.pending.filter (fun p => !(p.1 == id))⟩

/-- The `RPC_RESPONSE_EVENT_NAME` listener of `RPCClient`: no pending entry →
return without touching anything; otherwise delete the entry and settle the
promise (reject with the reconstructed error if the payload has one, else
resolve with the result). -/
def clientOnResponse (st : ClientState) (resp : Response) :
    ClientState × Option (Nat × Settlement) :=
  match lookupPending st resp.id with
  | none => (st, none)
  | some tok =>
      let st' := removePending st resp.id
      match resp.error with
      | some e => (st', some (tok, .rejected (reconstructError e)))
      | none => (st', some (tok, .resolved resp.result))

/-! ## Subscription hub (background.ts `RemoteSubjectManager` /
`RemoteSubject`) -/

/-- An observable message delivered to one subscriber tab
(`chrome.tabs.sendMessage(senderId, { operation, key, value? })`). -/
structure ObsSent where
  target : Nat
  key : String
  op : ObservableOp

/-- `RemoteSubjectManager` state: `subjects` (key → the Subject's initial
value — the only Subject datum the manager reads), `pendingSubscriptions`
(key → senderIds) and `activeSenders` (key → senderIds). -/
structure MgrState where
  subjects : List (String × JsValue)
  pending : List (String × List Nat)
  active : List (String × List Nat)

/-- The pending sender set for a key, as a list (`∅` when no entry). -/
def pendingSet (st : MgrState) (key : String) : List Nat :=
  (mapGet st.pending key).getD []

/-- The active sender set for a key, as a list (`∅` when no entry). -/
def activeSet (st : MgrState) (key : String) : List Nat :=
  (mapGet st.active key).getD []

/-- `handleSubscription(key, senderId)`: if the Subject exists, add the
sender to the active set (creating it if needed) and send it the initial
value; otherwise buffer the sender in the pending set. -/
def handleSubscription (st : MgrState) (key : String) (senderId : Nat) :
    MgrState × List ObsSent :=
  match mapGet st.subjects key with
  | some initVal =>
      ({ st with
          active := mapSet st.active key (setAdd (activeSet st key) senderId) },
       [{ target := senderId, key := key, op := .next initVal }])
  | none =>
      ({ st with
          pending := mapSet st.pending key (setAdd (pendingSet st key) senderId) },
       [])

/-- `handleUnsubscription(key, senderId)`: delete the sender from the active
and pending sets of that key, dropping a set's map entry when it becomes
empty. -/
def handleUnsubscription (st : MgrState) (key : String) (senderId : Nat) :
    MgrState :=
  let active' :=
    match mapGet st.active key with
    | some s =>
        let s' := setDel s senderId
        if s'.length == 0 then mapDelete st.active key
        else mapSet st.active key s'
    | none => st.active
  let pending' :=
    match mapGet st.pending key with
    | some s =>
        let s' := setDel s senderId
        if s'.length == 0 then mapDelete st.pending key
        else mapSet st.pending key s'
    | none => st.pending
  { st with active := active', pending := pending' }

/-- The per-map removal step of `handleUnsubscription`: the same block is
applied first to the active map and then to the pending map. -/
def delAt (m : List (String × List Nat)) (key : String) (sid : Nat) :
    List (String × List Nat) :=
  match mapGet m key with
  | some s =>
      let s' := setDel s sid
      if s'.length == 0 then mapDelete m key else mapSet m key s'
  | none => m

/-- Processing a batch of subscribe messages for one key, in arrival order
(the state part of repeated `handleSubscription`). -/
def processSubs (st : MgrState) (l : List Nat) (key : String) : MgrState :=
  l.foldl (fun s sender => (handleSubscription s key sender).1) st

/-- `sendMessage(message)`: broadcast the update to every sender in the
active set of the message's key (the pending set receives nothing).  The
manager state is not modified. -/
def mgrSendMessage (st : MgrState) (key : String) (op : ObservableOp) :
    List ObsSent :=
  match mapGet st.active key with
  | some senders => senders.map (fun s => { target := s, key := key, op := op })
  | none => []

/-- `createSubject(id, key, initialValue)`: register the Subject, then drain
the pending set of that key — move every pending sender to the active set,
send each the initial value, and delete the pending entry. -/
def createSubject (st : MgrState) (key : String) (initialValue : JsValue) :
    MgrState × List ObsSent :=
  let subjects' := mapSet st.subjects key initialValue
  match mapGet st.pending key with
  | some pend =>
      if pend.length > 0 then
        ({ subjects := subjects'
           pending := mapDelete st.pending key
           active := mapSet st.active key (pend.foldl setAdd (activeSet st key)) },
         pend.map (fun s => { target := s, key := key, op := .next initialValue }))
      else ({ st with subjects := subjects' }, [])
  | none => ({ st with subjects := subjects' }, [])

/-- `RemoteSubject` state: its `completed` flag and the `initialValue` it was
constructed with (its only stored value, returned by `getInitialValue`). -/
structure SubjectState where
  completed : Bool
  initialValue : JsValue

/-- `RemoteSubject.next(value)`: once completed, return without doing
anything; otherwise broadcast a `next` update through the manager.  The
manager state is returned unchanged — neither `next` nor `sendMessage`
writes it. -/
def subjectNext (subj : SubjectState) (mgr : MgrState) (finalKey : String)
    (v : JsValue) : SubjectState × MgrState × List ObsSent :=
  if subj.completed then (subj, mgr, [])
  else (subj, mgr, mgrSendMessage mgr finalKey (.next v))

/-- `RemoteSubject.complete()`: once completed, return without doing
anything; otherwise set the flag and broadcast a `complete` update through
the manager.  The manager state is returned unchanged. -/
def subjectComplete (subj : SubjectState) (mgr : MgrState) (finalKey : String) :
    SubjectState × MgrState × List ObsSent :=
  if subj.completed then (subj, mgr, [])
  else ({ subj with completed := true }, mgr, mgrSendMessage mgr finalKey .complete)

/-! ## Readiness handshake (client.ts `waitReady` / `createRPCService`) -/

/-- A message the client sends: a `RPC_PING` control message or a
`RPC_EVENT_NAME` call request. -/
inductive ClientSent where
  | ping
  | callRequest (service method : String)

/-- `waitReady`, with its real-time loop abstracted: `fuel` is the number of
retry attempts the 10s timeout allows, and `pong k` tells whether a matching
`RPC_PONG` arrives within attempt `k`'s 1s window.  Each attempt sends one
ping; when the fuel is exhausted the call rejects with
`'RPC service not ready (timeout)'`. -/
def waitReady (pong : Nat → Bool) : Nat → Nat → Except String Unit × List ClientSent
  | 0, _ => (.error "RPC service not ready (timeout)", [])
  | fuel + 1, k =>
      if pong k then (.ok (), [.ping])
      else
        let r := waitReady pong fuel (k + 1)
        (r.1, .ping :: r.2)

/-- The proxy returned by `createRPCService`: every string property access
yields a function that issues `call(serviceKey, prop, ...)`. -/
structure ServiceProxy where
  serviceKey : String

/-- A proxy method invocation sends exactly one call request. -/
def proxyInvoke (p : ServiceProxy) (method : String) : ClientSent :=
  .callRequest p.serviceKey method

/-- `createRPCService(serviceIdentifier)`: await `waitReady` first; on
timeout the returned promise rejects with `waitReady`'s error and the proxy
is never built, so the messages sent are exactly `waitReady`'s pings. -/
def createRPCService (pong : Nat → Bool) (fuel : Nat) (serviceKey : String) :
    Except String ServiceProxy × List ClientSent :=
  let r := waitReady pong fuel 0
  (r.1.map (fun _ => { serviceKey := serviceKey }), r.2)

/-! ## Router (unified-host.ts `UnifiedRPCHost.setupWebForwarding`,
web2background.ts `Web2BackgroundProxy`) -/

/-- The declared target role of a message (`RpcTo`). -/
inductive RpcToRole where
  | background
  | content
deriving Repr, DecidableEq

/-- A message arriving from the web side of the router: its declared target
role and the service it addresses. -/
structure WebMsg where
  target : RpcToRole
  service : String
  id : String

/-- What `setupWebForwarding`'s window listener does with a web message. -/
inductive ForwardAction where
  /-- forwarded over the runtime channel toward the background -/
  | relayToBackground
  /-- an error response naming the unregistered service is dispatched back
  to the web page -/
  | respondServiceNotFound
  /-- the listener returns without relaying, responding, or dispatching
  anything for this message -/
  | noAction
deriving Repr, DecidableEq

/-- `UnifiedRPCHost.setupWebForwarding`: relay only messages targeting the
background; a content-targeted message for an unregistered service is
answered with a service-not-found error; for a registered service the
handler takes no action at all — its comment defers to the content host's
handler, but that listens only on the runtime channel, which never receives
window events, so no component dispatches the call. -/
def webForwardAction (localServices : List String) (msg : WebMsg) :
    ForwardAction :=
  match msg.target with
  | .background => .relayToBackground
  | .content =>
      if msg.service ∈ localServices then .noAction
      else .respondServiceNotFound

/-- `Web2BackgroundProxy`'s window listener: forward a web message to the
background iff its declared target role is `background`. -/
def web2BackgroundForwards (msg : WebMsg) : Bool :=
  match msg.target with
  | .background => true
  | .content => false

/-! ## Basic lemmas about the embedded map and set operations -/

theorem find?_map_update {α : Type} (k : String) (v : α) :
    ∀ m : List (String × α), (m.find? (fun p => p.1 == k)).isSome →
      (m.map (fun p => if p.1 == k then (k, v) else p)).find?
        (fun p => p.1 == k) = some (k, v) := by
  intro m
  induction m with
  | nil => intro h; simp at h
  | cons p rest ih =>
    intro h
    by_cases hp : p.1 = k
    · simp [List.find?_cons, hp, -List.find?_map]
    · have hb : (p.1 == k) = false := by simp [hp]
      simp only [List.find?_cons, hb] at h
      simp [List.find?_cons, hp, -List.find?_map]
      have := ih (by simpa using h)
      simpa using this

theorem find?_map_update_ne {α : Type} (k k' : String) (v : α)
    (hne : ¬ k' = k) :
    ∀ m : List (String × α),
      (m.map (fun p => if p.1 == k then (k, v) else p)).find?
        (fun p => p.1 == k') = m.find? (fun p => p.1 == k') := by
  intro m
  have hne' : ¬ k = k' := fun h => hne h.symm
  induction m with
  | nil => rfl
  | cons p rest ih =>
    by_cases hp : p.1 = k
    · simp [List.find?_cons, hp, hne', -List.find?_map]
      simpa using ih
    · by_cases hk' : p.1 = k'
      · simp [List.find?_cons, hp, hk', hne, -List.find?_map]
      · simp [List.find?_cons, hp, hk', -List.find?_map]
        simpa using ih

theorem find?_filter_of_imp {α : Type} (P Q : α → Bool)
    (hPQ : ∀ p, P p = true → Q p = true) :
    ∀ m : List α, (m.filter Q).find? P = m.find? P := by
  intro m
  induction m with
  | nil => rfl
  | cons p rest ih =>
    by_cases hq : Q p = true
    · rw [List.filter_cons_of_pos hq]
      by_cases hp : P p = true
      · simp [List.find?_cons, hp]
      · have hp2 : P p = false := by simpa using hp
        simp [List.find?_cons, hp2, ih]
    · have hq2 : Q p = false := by simpa using hq
      have hp2 : P p = false := by
        cases hP : P p with
        | false => rfl
        | true => exact absurd (hPQ p hP) hq
      rw [List.filter_cons_of_neg (by simp [hq2])]
      simp [List.find?_cons, hp2, ih]

theorem mapGet_mapSet_self {α : Type} (m : List (String × α)) (k : String)
    (v : α) : mapGet (mapSet m k v) k = some v := by
  unfold mapGet mapSet
  by_cases h : (m.find? (fun p => p.1 == k)).isSome
  · rw [if_pos h, find?_map_update k v m h]
    rfl
  · rw [if_neg h, List.find?_append]
    have hnone : m.find? (fun p => p.1 == k) = none := by
      cases hf : m.find? (fun p => p.1 == k) with
      | none => rfl
      | some q => rw [hf] at h; simp at h
    rw [hnone]
    simp

theorem mapGet_mapSet_ne {α : Type} (m : List (String × α)) (k k' : String)
    (v : α) (hne : ¬ k' = k) : mapGet (mapSet m k v) k' = mapGet m k' := by
  have hne2 : ¬ k = k' := fun h => hne h.symm
  unfold mapGet mapSet
  by_cases h : (m.find? (fun p => p.1 == k)).isSome
  · rw [if_pos h, find?_map_update_ne k k' v hne m]
  · rw [if_neg h, List.find?_append]
    have hsingle : ([(k, v)].find? (fun p => p.1 == k')) = none := by
      simp [hne2]
    rw [hsingle]
    cases m.find? (fun p => p.1 == k') <;> rfl

theorem mapGet_mapDelete_self {α : Type} (m : List (String × α)) (k : String) :
    mapGet (mapDelete m k) k = none := by
  unfold mapGet mapDelete
  have : (m.filter (fun p => !(p.1 == k))).find? (fun p => p.1 == k) = none := by
    rw [List.find?_eq_none]
    intro p hp
    have := (List.mem_filter.mp hp).2
    simpa using this
  rw [this]
  rfl

theorem mapGet_mapDelete_ne {α : Type} (m : List (String × α)) (k k' : String)
    (hne : ¬ k' = k) : mapGet (mapDelete m k) k' = mapGet m k' := by
  unfold mapGet mapDelete
  rw [find?_filter_of_imp _ _ ?_ m]
  intro p hp
  have hpk : p.1 = k' := by simpa using hp
  simp [hpk, fun h : k' = k => hne h]

theorem mem_setAdd {s : List Nat} {x y : Nat} :
    x ∈ setAdd s y ↔ x ∈ s ∨ x = y := by
  unfold setAdd
  split
  · rename_i h
    constructor
    · exact Or.inl
    · rintro (hx | rfl)
      · exact hx
      · exact h
  · simp [List.mem_append]

theorem nodup_setAdd {s : List Nat} (h : s.Nodup) (y : Nat) :
    (setAdd s y).Nodup := by
  unfold setAdd
  split
  · exact h
  · rename_i hy
    simp [List.nodup_append, h, hy]

theorem mem_foldl_setAdd (x : Nat) :
    ∀ (l s : List Nat), x ∈ l.foldl setAdd s ↔ x ∈ s ∨ x ∈ l := by
  intro l
  induction l with
  | nil => simp
  | cons a t ih =>
    intro s
    rw [List.foldl_cons, ih, mem_setAdd]
    simp [List.mem_cons]
    tauto

theorem nodup_foldl_setAdd :
    ∀ (l s : List Nat), s.Nodup → (l.foldl setAdd s).Nodup := by
  intro l
  induction l with
  | nil => exact fun s h => h
  | cons a t ih =>
    intro s h
    exact ih _ (nodup_setAdd h a)

theorem mem_setDel {s : List Nat} {x y : Nat} :
    x ∈ setDel s y ↔ x ∈ s ∧ ¬ x = y := by
  simp [setDel, List.mem_filter]

theorem setDel_of_not_mem {s : List Nat} {y : Nat} (h : y ∉ s) :
    setDel s y = s := by
  apply List.filter_eq_self.mpr
  intro x hx
  simp
  rintro rfl
  exact h hx

/-! ## Lemmas about `Disposable` -/

theorem disposeWithMe_eq (st : DisposableState) (c : Nat) :
    disposeWithMe st c = ⟨st.isDisposed, setAdd st.callbacks c⟩ := by
  unfold disposeWithMe setAdd
  split <;> rfl

theorem foldl_disposeWithMe (cs : List Nat) :
    ∀ st : DisposableState,
      cs.foldl disposeWithMe st = ⟨st.isDisposed, cs.foldl setAdd st.callbacks⟩ := by
  induction cs with
  | nil => intro st; rfl
  | cons c t ih =>
    intro st
    rw [List.foldl_cons, disposeWithMe_eq, ih]
    simp [List.foldl_cons]

/-- C9: on a `Disposable` with any set of registered teardown callbacks, the
first `dispose()` executes each registered callback exactly once, in
registration order (the executed list is exactly the registered list), and
flips the disposed flag; a second `dispose()` is a no-op that runs no
callback; `isDisposed()` is a pure query of the flag. -/
theorem dispose_runs_each_callback_once_and_is_idempotent
    (cs : List Nat) (st : DisposableState) :
    ((dispose (registerAll cs)).2 = (registerAll cs).callbacks ∧
      (∀ c ∈ cs, (dispose (registerAll cs)).2.count c = 1) ∧
      (dispose (registerAll cs)).1.isDisposed = true) ∧
    dispose (dispose st).1 = ((dispose st).1, []) ∧
    isDisposedQuery st = st.isDisposed := by
  have hreg : registerAll cs = ⟨false, cs.foldl setAdd []⟩ :=
    foldl_disposeWithMe cs ⟨false, []⟩
  refine ⟨⟨?_, ?_, ?_⟩, ?_, rfl⟩
  · rw [hreg]
    simp [dispose]
  · intro c hc
    rw [hreg]
    have h2 : (dispose ⟨false, cs.foldl setAdd []⟩).2 = cs.foldl setAdd [] := by
      simp [dispose]
    rw [h2]
    exact List.count_eq_one_of_mem (nodup_foldl_setAdd cs [] List.nodup_nil)
      ((mem_foldl_setAdd c cs []).mpr (Or.inr hc))
  · rw [hreg]
    simp [dispose]
  · by_cases h : st.isDisposed = true
    · simp [dispose, h]
    · simp [dispose, h]

/-- Witness for C9 at the concrete registration list `[5, 7]`. -/
theorem dispose_runs_each_callback_once_and_is_idempotent_witness :
    (dispose (registerAll [5, 7])).2.count 5 = 1 ∧
    (dispose (registerAll [5, 7])).2.count 7 = 1 ∧
    (dispose (registerAll [5, 7])).1.isDisposed = true := by
  have h := dispose_runs_each_callback_once_and_is_idempotent [5, 7] ⟨false, []⟩
  exact ⟨h.1.2.1 5 (by decide), h.1.2.1 7 (by decide), h.1.2.2⟩

/-- C10: the subscriber-side observable never delivers a falsy `next` value
to the callback (`0`, `""`, `false`, `null` and `undefined` are all
dropped); the callback fires only when the key matches, the observable is
not completed, and the value is truthy. -/
theorem observable_drops_falsy_values (fk k : String) (st : ObservableState)
    (v : JsValue) :
    (v.truthy = false → baseObservableOnMessage fk st k (.next v) = st) ∧
    (st.completed = true → baseObservableOnMessage fk st k (.next v) = st) ∧
    (k = fk → st.completed = false → v.truthy = true →
      (baseObservableOnMessage fk st k (.next v)).delivered
        = st.delivered ++ [v]) := by
  refine ⟨?_, ?_, ?_⟩
  · intro hv
    by_cases hk : (k == fk) = true
    · simp [baseObservableOnMessage, hk, hv]
    · simp [baseObservableOnMessage, hk]
  · intro hc
    by_cases hk : (k == fk) = true
    · simp [baseObservableOnMessage, hk, hc]
    · simp [baseObservableOnMessage, hk]
  · intro hk hc hv
    subst hk
    simp [baseObservableOnMessage, hc, hv]

/-- Witness for C10: a `next` update carrying `0` leaves the observable
untouched, while a truthy `5` on the same fresh observable is delivered. -/
theorem observable_drops_falsy_values_witness :
    baseObservableOnMessage "obs-main" ⟨false, []⟩ "obs-main" (.next (.numV 0))
      = ⟨false, []⟩ ∧
    (baseObservableOnMessage "obs-main" ⟨false, []⟩ "obs-main"
        (.next (.numV 5))).delivered = [] ++ [.numV 5] := by
  refine ⟨?_, ?_⟩
  · exact (observable_drops_falsy_values "obs-main" "obs-main" ⟨false, []⟩
      (.numV 0)).1 (by decide)
  · exact (observable_drops_falsy_values "obs-main" "obs-main" ⟨false, []⟩
      (.numV 5)).2.2 rfl rfl (by decide)

/-- C7: evaluation of the forwarding listener at the failing input.  A web
message targeting the content role whose service is locally registered is
neither relayed nor answered nor dispatched — the listener takes no action,
so the call is dropped (contradicting the claim's, and the branch's own
comment's, "dispatched directly to that local service"); exactly the
background-targeted messages are relayed, by `setupWebForwarding` and by
`Web2BackgroundProxy` alike. -/
theorem webForward_drops_registered_content_calls (ls : List String)
    (msg : WebMsg) :
    (webForwardAction ls msg = .noAction ↔
      msg.target = .content ∧ msg.service ∈ ls) ∧
    (webForwardAction ls msg = .relayToBackground ↔ msg.target = .background) ∧
    (web2BackgroundForwards msg = true ↔ msg.target = .background) ∧
    webForwardAction ["dom"] ⟨.content, "dom", "1"⟩ = .noAction ∧
    web2BackgroundForwards ⟨.content, "dom", "1"⟩ = false := by
  refine ⟨?_, ?_, ?_, by decide, by decide⟩ <;>
    cases h : msg.target with
  | background =>
    simp [webForwardAction, web2BackgroundForwards, h]
  | content =>
    by_cases hm : msg.service ∈ ls <;>
      simp [webForwardAction, web2BackgroundForwards, h, hm]

/-- C5: a request for an unregistered service is answered (not thrown) with
an error whose message names the missing service; a request for a
registered service lacking the method is answered with an error naming the
missing method.  Both the background host and the unified/content host
dispatch produce these responses. -/
theorem host_unknown_service_and_method
    (services : List (String × ServiceImpl)) (req : Request) :
    (mapGet services req.service = none →
      (backgroundHandleRequest services req).error =
        some ⟨some ("Unknown service: " ++ req.service), none, none⟩ ∧
      (unifiedHandleRequest services req).error =
        some ⟨some ("Unknown service: " ++ req.service), none, none⟩ ∧
      ∃ pre post,
        "Unknown service: " ++ req.service = pre ++ req.service ++ post) ∧
    (∀ impl, mapGet services req.service = some impl →
      mapGet impl.methods req.method = none →
      (backgroundHandleRequest services req).error =
        some ⟨some ("Unknown method: " ++ req.method), none, none⟩ ∧
      (unifiedHandleRequest services req).error =
        some ⟨some ("Unknown method: " ++ req.method), none, none⟩) := by
  refine ⟨?_, ?_⟩
  · intro h
    refine ⟨?_, ?_, "Unknown service: ", "", ?_⟩
    · simp [backgroundHandleRequest, handleRequest, h]
    · simp [unifiedHandleRequest, handleRequest, h]
    · simp
  · intro impl hs hm
    constructor
    · simp [backgroundHandleRequest, handleRequest, hs, hm]
    · simp [unifiedHandleRequest, handleRequest, hs, hm]

/-- Witness for C5: calling method `missing` on the registered `math`
service yields the error message `Unknown method: missing`; calling the
unregistered `nosuch` service yields `Unknown service: nosuch`. -/
theorem host_unknown_service_and_method_witness :
    (backgroundHandleRequest [("math", ⟨[("add", fun _ => .ok (.numV 5))]⟩)]
        ⟨"1", "math", "missing", []⟩).error =
      some ⟨some ("Unknown method: " ++ "missing"), none, none⟩ ∧
    (backgroundHandleRequest [("math", ⟨[("add", fun _ => .ok (.numV 5))]⟩)]
        ⟨"2", "nosuch", "add", []⟩).error =
      some ⟨some ("Unknown service: " ++ "nosuch"), none, none⟩ := by
  refine ⟨?_, ?_⟩
  · exact ((host_unknown_service_and_method
      [("math", ⟨[("add", fun _ => .ok (.numV 5))]⟩)]
      ⟨"1", "math", "missing", []⟩).2 ⟨[("add", fun _ => .ok (.numV 5))]⟩
      rfl rfl).1
  · exact ((host_unknown_service_and_method
      [("math", ⟨[("add", fun _ => .ok (.numV 5))]⟩)]
      ⟨"2", "nosuch", "add", []⟩).1 rfl).1

/-- The response listener never finds an id it has just deleted. -/
theorem lookupPending_removePending (st : ClientState) (id : String) :
    lookupPending (removePending st id) id = none := by
  unfold lookupPending removePending
  have h : (st.pending.filter (fun p => !(p.1 == id))).find?
      (fun p => p.1 == id) = none := by
    rw [List.find?_eq_none]
    intro p hp
    have := (List.mem_filter.mp hp).2
    simpa using this
  rw [h]
  rfl

/-- C1: a response whose id has no pending entry leaves the client state
unchanged and settles nothing; a response whose id has an entry removes the
entry and settles that promise exactly once (reject on an error payload,
resolve otherwise), and a duplicate of the same response afterwards is
dropped without effect. -/
theorem client_consumes_each_response_at_most_once
    (st : ClientState) (resp : Response) :
    (lookupPending st resp.id = none → clientOnResponse st resp = (st, none)) ∧
    (∀ tok, lookupPending st resp.id = some tok →
      lookupPending (clientOnResponse st resp).1 resp.id = none ∧
      (clientOnResponse st resp).2 =
        some (tok,
          match resp.error with
          | some e => .rejected (reconstructError e)
          | none => .resolved resp.result) ∧
      clientOnResponse (clientOnResponse st resp).1 resp =
        ((clientOnResponse st resp).1, none)) := by
  refine ⟨?_, ?_⟩
  · intro h
    simp [clientOnResponse, h]
  · intro tok h
    cases herr : resp.error with
    | none =>
      refine ⟨?_, ?_, ?_⟩
      · simp [clientOnResponse, h, herr, lookupPending_removePending]
      · simp [clientOnResponse, h, herr]
      · simp [clientOnResponse, h, herr, lookupPending_removePending]
    | some e =>
      refine ⟨?_, ?_, ?_⟩
      · simp [clientOnResponse, h, herr, lookupPending_removePending]
      · simp [clientOnResponse, h, herr]
      · simp [clientOnResponse, h, herr, lookupPending_removePending]

/-- Witness for C1: consuming a response for pending id `a` removes the
entry, resolves the promise, and a duplicate is then dropped. -/
theorem client_consumes_each_response_at_most_once_witness :
    lookupPending (clientOnResponse ⟨[("a", 1)]⟩
        ⟨"a", some (.numV 5), none, "svc", "m"⟩).1 "a" = none ∧
    (clientOnResponse ⟨[("a", 1)]⟩
        ⟨"a", some (.numV 5), none, "svc", "m"⟩).2 =
      some (1, .resolved (some (.numV 5))) ∧
    clientOnResponse (clientOnResponse ⟨[("a", 1)]⟩
        ⟨"a", some (.numV 5), none, "svc", "m"⟩).1
        ⟨"a", some (.numV 5), none, "svc", "m"⟩ =
      ((clientOnResponse ⟨[("a", 1)]⟩
        ⟨"a", some (.numV 5), none, "svc", "m"⟩).1, none) := by
  have h := (client_consumes_each_response_at_most_once ⟨[("a", 1)]⟩
    ⟨"a", some (.numV 5), none, "svc", "m"⟩).2 1 rfl
  exact ⟨h.1, h.2.1, h.2.2⟩

/-- When no pong ever arrives, every retry of `waitReady` sends a ping and
the loop finally rejects with the timeout error. -/
theorem waitReady_all_pongs_missing (pong : Nat → Bool)
    (hp : ∀ k, pong k = false) :
    ∀ fuel k0 : Nat, waitReady pong fuel k0 =
      (.error "RPC service not ready (timeout)", List.replicate fuel .ping) := by
  intro fuel
  induction fuel with
  | zero => intro k0; rfl
  | succ n ih =>
    intro k0
    simp [waitReady, hp k0, ih (k0 + 1), List.replicate_succ]

/-- C6: a freshly created service proxy first pings and waits for a pong,
retrying; when no pong ever arrives, `createRPCService` rejects with the
`RPC service not ready (timeout)` error (whose text contains
`service not ready`), one ping was sent per retry, and no call request is
ever sent for that attempt. -/
theorem createRPCService_times_out_without_pong (pong : Nat → Bool)
    (fuel : Nat) (sid : String) :
    (fuel ≠ 0 → (createRPCService pong fuel sid).2.head? = some .ping) ∧
    ((∀ k, pong k = false) →
      (createRPCService pong fuel sid).1 =
        .error "RPC service not ready (timeout)" ∧
      (∀ m ∈ (createRPCService pong fuel sid).2, m = .ping) ∧
      (createRPCService pong fuel sid).2.length = fuel ∧
      ∃ pre post,
        "RPC service not ready (timeout)" = pre ++ "service not ready" ++ post) := by
  refine ⟨?_, ?_⟩
  · intro hf
    cases fuel with
    | zero => exact absurd rfl hf
    | succ n =>
      by_cases hp : pong 0 = true
      · simp [createRPCService, waitReady, hp]
      · simp [createRPCService, waitReady, hp]
  · intro hp
    have hw := waitReady_all_pongs_missing pong hp fuel 0
    refine ⟨?_, ?_, ?_, "RPC ", " (timeout)", ?_⟩
    · simp [createRPCService, hw, Except.map]
    · intro m hm
      rw [createRPCService, hw] at hm
      exact List.eq_of_mem_replicate hm
    · simp [createRPCService, hw]
    · rfl

/-- Witness for C6: with no pong and two retry attempts, the service
creation rejects with the timeout error after sending two pings, the first
message being a ping. -/
theorem createRPCService_times_out_without_pong_witness :
    (createRPCService (fun _ => false) 2 "svc").1 =
      .error "RPC service not ready (timeout)" ∧
    (createRPCService (fun _ => false) 2 "svc").2.length = 2 ∧
    (createRPCService (fun _ => false) 2 "svc").2.head? = some .ping := by
  have h := createRPCService_times_out_without_pong (fun _ => false) 2 "svc"
  exact ⟨(h.2 (fun k => rfl)).1, (h.2 (fun k => rfl)).2.2.1, h.1 (by decide)⟩

/-- C3 counterexample: when a service method of `BackgroundRPCHost` throws
the plain string `"boom"` (not an `Error`), the serialized payload's
`message` is `undefined` — the wire payload does not always carry a defined
message, because this host copies `err.message` verbatim instead of
normalizing through `toRpcErrorLike`. -/
theorem background_host_thrown_string_message_undefined :
    ((backgroundHandleRequest
        [("svc", ⟨[("m", fun _ => .thrown (.strV "boom"))]⟩)]
        ⟨"1", "svc", "m", []⟩).error.map (·.message)) = some none := by
  rfl

/-- C3 amended: hosts that normalize through `toRpcErrorLike`
(`ContentRPCHost`, `UnifiedRPCHost`) always serialize a defined non-empty
message, coercing non-`Error` thrown values; `BackgroundRPCHost` copies an
`Error`'s fields verbatim (and so leaves `message` undefined for non-`Error`
values); the client rejects with an error whose message and stack equal the
wire payload's (empty message when the payload's is undefined) and whose
name equals the payload's name when that is a defined non-empty string,
substituting `RPCError` otherwise. -/
theorem normalized_error_payload_and_client_reconstruction
    (t : Thrown) (w : WireError) (n m : String) (s : Option String) :
    (contentErrorPayload t).message.isSome = true ∧
    (contentErrorPayload t).message.getD "" ≠ "" ∧
    backgroundErrorPayload (.errObj n m s) = ⟨some m, some n, s⟩ ∧
    (reconstructError w).message = w.message.getD "" ∧
    (reconstructError w).stack = w.stack ∧
    (∀ nm, w.name = some nm → nm ≠ "" → (reconstructError w).name = nm) ∧
    (w.name = none → (reconstructError w).name = "RPCError") := by
  have hcontent : ∀ s0 : String, strHasContent s0 = true → s0 ≠ "" := by
    intro s0 h he
    subst he
    simp [strHasContent] at h
  have hmsg : (toRpcErrorLike t).message ≠ "" := by
    cases t with
    | errObj n0 m0 s0 =>
      by_cases hm : (m0 == "") = true
      · simp [toRpcErrorLike, hm]
      · have hne : m0 ≠ "" := by simpa using hm
        simpa [toRpcErrorLike, hm] using hne
    | recObj eF mF nF =>
      by_cases he : strTrimTruthy eF = true
      · cases eF with
        | none => simp [strTrimTruthy] at he
        | some s0 =>
          have hc : strHasContent s0 = true := by simpa [strTrimTruthy] using he
          simpa [toRpcErrorLike, he] using hcontent s0 hc
      · by_cases hm : strTrimTruthy mF = true
        · cases mF with
          | none => simp [strTrimTruthy] at hm
          | some s0 =>
            have hc : strHasContent s0 = true := by simpa [strTrimTruthy] using hm
            simpa [toRpcErrorLike, he, hm] using hcontent s0 hc
        · simp [toRpcErrorLike, he, hm]
    | strV s0 =>
      by_cases hs : strHasContent s0 = true
      · simpa [toRpcErrorLike, hs] using hcontent s0 hs
      · simp [toRpcErrorLike, hs]
    | prim => simp [toRpcErrorLike]
  obtain ⟨wm, wn, ws⟩ := w
  refine ⟨?_, ?_, rfl, ?_, rfl, ?_, ?_⟩
  · simp [contentErrorPayload]
  · simpa [contentErrorPayload] using hmsg
  · cases wm <;> rfl
  · intro nm hn hne
    have hb : (nm == "") = false := by simpa using hne
    simp at hn
    simp [reconstructError, hn, hb]
  · intro hn
    simp at hn
    simp [reconstructError, hn]

/-- Witness for C3: a thrown string is normalized to a defined message by
`toRpcErrorLike`-based hosts, and the client keeps a defined non-empty
payload name and substitutes `RPCError` for a missing one. -/
theorem normalized_error_payload_and_client_reconstruction_witness :
    (contentErrorPayload (.strV "boom")).message.isSome = true ∧
    (reconstructError ⟨some "boom", some "TypeError", none⟩).name = "TypeError" ∧
    (reconstructError ⟨some "boom", none, none⟩).name = "RPCError" := by
  have h1 := normalized_error_payload_and_client_reconstruction (.strV "boom")
    ⟨some "boom", some "TypeError", none⟩ "E" "msg" none
  have h2 := normalized_error_payload_and_client_reconstruction (.strV "boom")
    ⟨some "boom", none, none⟩ "E" "msg" none
  exact ⟨h1.1, h1.2.2.2.2.2.1 "TypeError" rfl (by decide), h2.2.2.2.2.2.2 rfl⟩

/-- C4 counterexample: after `complete()` on a subject whose key has the
active subscriber set `{1}`, the manager's active set for that key is still
`{1}` — it is not cleared. -/
theorem complete_does_not_clear_active_set :
    activeSet (subjectComplete ⟨false, .numV 0⟩
        ⟨[("counter-main", .numV 0)], [], [("counter-main", [1])]⟩
        "counter-main").2.1 "counter-main" = [1] ∧
    ([1] : List Nat) ≠ [] := by
  exact ⟨rfl, by decide⟩

/-- C4 amended: `complete()` is terminal — it sets the completed flag, and
every subsequent `next()` has no observable effect (no message sent, the
subject's stored value unchanged); the manager's state, including the active
subscriber set for the subject's key, is left unchanged by `complete()`
(not cleared) — no further events reach those subscribers only because
`next`/`complete` return early once completed. -/
theorem complete_terminal_next_noop (subj : SubjectState) (mgr mgr2 : MgrState)
    (fk : String) (v : JsValue) :
    (subjectComplete subj mgr fk).2.1 = mgr ∧
    (subjectComplete subj mgr fk).1.completed = true ∧
    (subjectComplete subj mgr fk).1.initialValue = subj.initialValue ∧
    subjectNext (subjectComplete subj mgr fk).1 mgr2 fk v =
      ((subjectComplete subj mgr fk).1, mgr2, []) := by
  by_cases h : subj.completed = true <;>
    simp [subjectComplete, subjectNext, h]

/-! ## Lemmas about the subscription hub -/

theorem handleSubscription_subjects (st : MgrState) (key : String) (sid : Nat) :
    ((handleSubscription st key sid).1).subjects = st.subjects := by
  cases h : mapGet st.subjects key <;> simp [handleSubscription, h]

theorem handleSubscription_no_subject (st : MgrState) (key : String) (sid : Nat)
    (h : mapGet st.subjects key = none) :
    (handleSubscription st key sid).1 =
      { st with pending := mapSet st.pending key (setAdd (pendingSet st key) sid) } := by
  simp [handleSubscription, h]

theorem processSubs_no_subject (key : String) :
    ∀ (l : List Nat) (st : MgrState), mapGet st.subjects key = none →
      (processSubs st l key).subjects = st.subjects ∧
      (processSubs st l key).active = st.active ∧
      pendingSet (processSubs st l key) key =
        l.foldl setAdd (pendingSet st key) := by
  intro l
  induction l with
  | nil => exact fun st _ => ⟨rfl, rfl, rfl⟩
  | cons x t ih =>
    intro st h
    have hstep := handleSubscription_no_subject st key x h
    have hchain : processSubs st (x :: t) key =
        processSubs (handleSubscription st key x).1 t key := rfl
    have h1 : mapGet ((handleSubscription st key x).1).subjects key = none := by
      rw [hstep]; exact h
    obtain ⟨hs, ha, hp⟩ := ih (handleSubscription st key x).1 h1
    refine ⟨?_, ?_, ?_⟩
    · rw [hchain, hs, hstep]
    · rw [hchain, ha, hstep]
    · rw [hchain, hp, List.foldl_cons]
      have : pendingSet (handleSubscription st key x).1 key =
          setAdd (pendingSet st key) x := by
        rw [hstep]
        unfold pendingSet
        simp [mapGet_mapSet_self]
      rw [this]

theorem processSubs_pending_some (key : String) :
    ∀ (l : List Nat) (st : MgrState) (p : List Nat),
      mapGet st.subjects key = none → mapGet st.pending key = some p →
      mapGet (processSubs st l key).pending key = some (l.foldl setAdd p) := by
  intro l
  induction l with
  | nil => exact fun st p _ hp => hp
  | cons x t ih =>
    intro st p h hp
    have hstep := handleSubscription_no_subject st key x h
    have hchain : processSubs st (x :: t) key =
        processSubs (handleSubscription st key x).1 t key := rfl
    have h1 : mapGet ((handleSubscription st key x).1).subjects key = none := by
      rw [hstep]; exact h
    have hp1 : mapGet ((handleSubscription st key x).1).pending key =
        some (setAdd p x) := by
      rw [hstep]
      have : pendingSet st key = p := by unfold pendingSet; rw [hp]; rfl
      simp [mapGet_mapSet_self, this]
    rw [hchain, ih (handleSubscription st key x).1 (setAdd p x) h1 hp1,
      List.foldl_cons]

/-- C2: all subscribers whose subscribe messages arrive (in any order)
before `createSubject` for a key end up buffered in the pending set; the
`createSubject` call then moves every one of them into the active set, sends
each of them exactly one message — carrying the initial value — and empties
the pending set for that key. -/
theorem createSubject_delivers_initial_to_all_pending
    (st0 : MgrState) (key : String) (l : List Nat) (v : JsValue)
    (hsub : mapGet st0.subjects key = none)
    (hpend : mapGet st0.pending key = none) :
    (∀ s ∈ l, s ∈ pendingSet (processSubs st0 l key) key) ∧
    (∀ s ∈ l, s ∈ activeSet (createSubject (processSubs st0 l key) key v).1 key) ∧
    (∀ s ∈ l,
      (createSubject (processSubs st0 l key) key v).2.countP
        (fun msg => msg.target == s) = 1) ∧
    (∀ msg ∈ (createSubject (processSubs st0 l key) key v).2,
      msg.key = key ∧ msg.op = .next v) ∧
    mapGet (createSubject (processSubs st0 l key) key v).1.pending key = none := by
  have hp0 : pendingSet st0 key = [] := by
    unfold pendingSet; rw [hpend]; rfl
  cases l with
  | nil =>
    refine ⟨by simp, by simp, by simp, by simp [processSubs, createSubject, hpend], ?_⟩
    simp [processSubs, createSubject, hpend]
  | cons x t =>
    have hchain : processSubs st0 (x :: t) key =
        processSubs (handleSubscription st0 key x).1 t key := rfl
    have hstep := handleSubscription_no_subject st0 key x hsub
    have h1 : mapGet ((handleSubscription st0 key x).1).subjects key = none := by
      rw [hstep]; exact hsub
    have hp1 : mapGet ((handleSubscription st0 key x).1).pending key =
        some (setAdd [] x) := by
      rw [hstep]
      simp [mapGet_mapSet_self, hp0]
    have hsome : mapGet (processSubs st0 (x :: t) key).pending key =
        some ((x :: t).foldl setAdd []) := by
      rw [hchain, processSubs_pending_some key t (handleSubscription st0 key x).1
        (setAdd [] x) h1 hp1, List.foldl_cons]
    have hPmem : ∀ s ∈ x :: t, s ∈ (x :: t).foldl setAdd [] := by
      intro s hs
      exact (mem_foldl_setAdd s (x :: t) []).mpr (Or.inr hs)
    have hPnodup : ((x :: t).foldl setAdd []).Nodup :=
      nodup_foldl_setAdd (x :: t) [] List.nodup_nil
    have hPlen : 0 < ((x :: t).foldl setAdd []).length := by
      apply List.length_pos.mpr
      intro hnil
      have := hPmem x (by simp)
      rw [hnil] at this
      exact absurd this (List.not_mem_nil x)
    have hcreate :
        createSubject (processSubs st0 (x :: t) key) key v =
          ({ subjects :=
               mapSet (processSubs st0 (x :: t) key).subjects key v
             pending := mapDelete (processSubs st0 (x :: t) key).pending key
             active := mapSet (processSubs st0 (x :: t) key).active key
               (((x :: t).foldl setAdd []).foldl setAdd
                 (activeSet (processSubs st0 (x :: t) key) key)) },
           ((x :: t).foldl setAdd []).map
             (fun s => { target := s, key := key, op := .next v })) := by
      rw [createSubject.eq_def, hsome]
      simp only []
      rw [if_pos (by simpa using hPlen)]
    refine ⟨?_, ?_, ?_, ?_, ?_⟩
    · intro s hs
      obtain ⟨_, _, hp⟩ := processSubs_no_subject key (x :: t) st0 hsub
      rw [hp, hp0]
      exact hPmem s hs
    · intro s hs
      rw [hcreate]
      unfold activeSet
      simp only [mapGet_mapSet_self, Option.getD_some]
      exact (mem_foldl_setAdd s _ _).mpr (Or.inr (hPmem s hs))
    · intro s hs
      rw [hcreate]
      simp only []
      rw [List.countP_map]
      have hfun :
          ((fun msg : ObsSent => msg.target == s) ∘
            (fun s0 : Nat => ({ target := s0, key := key, op := .next v } : ObsSent)))
            = (fun s0 : Nat => s0 == s) := rfl
      rw [hfun]
      have hcount : ((x :: t).foldl setAdd []).count s = 1 :=
        List.count_eq_one_of_mem hPnodup (hPmem s hs)
      exact hcount
    · intro msg hmsg
      rw [hcreate] at hmsg
      simp only [List.mem_map] at hmsg
      obtain ⟨s0, _, rfl⟩ := hmsg
      exact ⟨rfl, rfl⟩
    · rw [hcreate]
      simp [mapGet_mapDelete_self]

/-- Witness for C2: subscribers `1` and `2` subscribe before the subject
exists; `createSubject` then activates both, messages each exactly once, and
empties the pending set. -/
theorem createSubject_delivers_initial_to_all_pending_witness :
    (1 ∈ pendingSet (processSubs ⟨[], [], []⟩ [1, 2] "counter-main") "counter-main") ∧
    (2 ∈ activeSet (createSubject (processSubs ⟨[], [], []⟩ [1, 2] "counter-main")
        "counter-main" (.numV 0)).1 "counter-main") ∧
    (createSubject (processSubs ⟨[], [], []⟩ [1, 2] "counter-main")
        "counter-main" (.numV 0)).2.countP (fun msg => msg.target == 1) = 1 ∧
    mapGet (createSubject (processSubs ⟨[], [], []⟩ [1, 2] "counter-main")
        "counter-main" (.numV 0)).1.pending "counter-main" = none := by
  have h := createSubject_delivers_initial_to_all_pending ⟨[], [], []⟩
    "counter-main" [1, 2] (.numV 0) rfl rfl
  exact ⟨h.1 1 (by decide), h.2.1 2 (by decide), h.2.2.1 1 (by decide), h.2.2.2.2⟩

/-! ## Lemmas about unsubscription -/

theorem handleUnsubscription_eq (st : MgrState) (key : String) (sid : Nat) :
    handleUnsubscription st key sid =
      { st with active := delAt st.active key sid
                pending := delAt st.pending key sid } := rfl

theorem getD_delAt_self (m : List (String × List Nat)) (key : String)
    (sid : Nat) :
    (mapGet (delAt m key sid) key).getD [] =
      setDel ((mapGet m key).getD []) sid := by
  unfold delAt
  cases h : mapGet m key with
  | none => simp [h, setDel]
  | some s =>
    simp only [h, Option.getD_some]
    by_cases hz : ((setDel s sid).length == 0) = true
    · have hnil : setDel s sid = [] := by
        apply List.length_eq_zero.mp
        simpa using hz
      rw [if_pos hz]
      simp [mapGet_mapDelete_self, hnil]
    · rw [if_neg hz]
      simp [mapGet_mapSet_self]

theorem mapGet_delAt_ne (m : List (String × List Nat)) (key k : String)
    (sid : Nat) (hne : ¬ k = key) :
    mapGet (delAt m key sid) k = mapGet m k := by
  unfold delAt
  cases h : mapGet m key with
  | none => rfl
  | some s =>
    simp only [h]
    by_cases hz : ((setDel s sid).length == 0) = true
    · rw [if_pos hz, mapGet_mapDelete_ne m key k hne]
    · rw [if_neg hz, mapGet_mapSet_ne m key k _ hne]

theorem mem_delAt_of_not_mem (m : List (String × List Nat)) (key : String)
    (sid : Nat) (h : sid ∉ (mapGet m key).getD []) (k : String) (x : Nat) :
    x ∈ (mapGet (delAt m key sid) k).getD [] ↔ x ∈ (mapGet m k).getD [] := by
  by_cases hk : k = key
  · subst hk
    rw [getD_delAt_self, setDel_of_not_mem h]
  · rw [mapGet_delAt_ne m key k sid hk]

theorem mem_mgrSendMessage (st : MgrState) (key : String) (op : ObservableOp)
    (msg : ObsSent) :
    msg ∈ mgrSendMessage st key op ↔
      msg ∈ ((mapGet st.active key).getD []).map
        (fun s => ({ target := s, key := key, op := op } : ObsSent)) := by
  unfold mgrSendMessage
  cases mapGet st.active key <;> simp

/-- C8: after `unsubscribe(key, sid)`, a broadcast for that key reaches no
message whose target is `sid`, while every other previously active
subscriber of the key still receives its message; unsubscribing an id that
is in neither the pending nor the active set leaves the membership of every
pending and active set unchanged. -/
theorem unsubscribe_isolates_only_target (st : MgrState) (key : String)
    (sid : Nat) (v : JsValue) :
    (∀ msg ∈ mgrSendMessage (handleUnsubscription st key sid) key (.next v),
      msg.target ≠ sid) ∧
    (∀ x ∈ activeSet st key, x ≠ sid →
      ({ target := x, key := key, op := .next v } : ObsSent) ∈
        mgrSendMessage (handleUnsubscription st key sid) key (.next v)) ∧
    (sid ∉ pendingSet st key → sid ∉ activeSet st key →
      ∀ (k : String) (x : Nat),
        (x ∈ pendingSet (handleUnsubscription st key sid) k ↔
          x ∈ pendingSet st k) ∧
        (x ∈ activeSet (handleUnsubscription st key sid) k ↔
          x ∈ activeSet st k)) := by
  have hactive : (handleUnsubscription st key sid).active = delAt st.active key sid := by
    rw [handleUnsubscription_eq]
  have hpending : (handleUnsubscription st key sid).pending = delAt st.pending key sid := by
    rw [handleUnsubscription_eq]
  refine ⟨?_, ?_, ?_⟩
  · intro msg hmsg
    rw [mem_mgrSendMessage, hactive, getD_delAt_self] at hmsg
    simp only [List.mem_map] at hmsg
    obtain ⟨s0, hs0, rfl⟩ := hmsg
    exact (mem_setDel.mp hs0).2
  · intro x hx hne
    rw [mem_mgrSendMessage, hactive, getD_delAt_self]
    simp only [List.mem_map]
    exact ⟨x, mem_setDel.mpr ⟨hx, hne⟩, rfl⟩
  · intro hpe hac k x
    constructor
    · unfold pendingSet
      rw [hpending]
      exact mem_delAt_of_not_mem st.pending key sid hpe k x
    · unfold activeSet
      rw [hactive]
      exact mem_delAt_of_not_mem st.active key sid hac k x

/-- Witness for C8: with active set `{1, 2}` for key `k`, unsubscribing `1`
keeps subscriber `2` receiving the broadcast, and unsubscribing the absent
id `5` changes no set membership. -/
theorem unsubscribe_isolates_only_target_witness :
    (({ target := 2, key := "k", op := .next (.numV 7) } : ObsSent) ∈
      mgrSendMessage (handleUnsubscription ⟨[], [], [("k", [1, 2])]⟩ "k" 1)
        "k" (.next (.numV 7))) ∧
    (1 ∈ activeSet (handleUnsubscription ⟨[], [], [("k", [1, 2])]⟩ "k" 5) "k") := by
  refine ⟨?_, ?_⟩
  · exact (unsubscribe_isolates_only_target ⟨[], [], [("k", [1, 2])]⟩ "k" 1
      (.numV 7)).2.1 2 (by decide) (by decide)
  · exact ((unsubscribe_isolates_only_target ⟨[], [], [("k", [1, 2])]⟩ "k" 5
      (.numV 7)).2.2 (by decide) (by decide) "k" 1).2.mpr (by decide)

end CrxRpc
